import Mathlib

/-!
Shallow embedding of the message fan-out / delivery-state subsystem of the
event-management backend: `MessagesService` (admin side) and `MobileService`
(recipient side), together with the record store they act on.

The record store (Prisma over `Attendee`, `Invite`, `MobileMessage`,
`Broadcast` tables) is modelled as lists of records inside a `Store`
structure; `create` appends a record with a fresh monotonically increasing
identifier (which also serves as its `createdAt` timestamp, so creation
order and `createdAt` order coincide), `findMany` is `List.filter`,
`findFirst`/`findUnique` is `List.find?`, `update`/`updateMany` is
`List.map` guarded by the update predicate, and
`orderBy createdAt desc` is insertion sort by descending `createdAt`.
`new Date()` is modelled by the store's `now` field, a request timestamp
not advanced by writes within a request.

JavaScript truthiness on optional string fields (`data.attendeeId`,
`data.inviteId`, the spread guard on the mobile where-clause) is modelled
by `truthy`: absent or empty-string values are falsy.
-/

namespace EventMsg

/-- Delivery state values the service ever writes into the nullable
`deliveryStatus` column: `delivered` or `queued`. -/
inductive DeliveryState
  | delivered
  | queued
deriving DecidableEq

/-- An `Attendee` record: a person with an account tied to one event. -/
structure Attendee where
  id : String
  eventId : String
  email : String
  acceptedAt : Option Nat
deriving DecidableEq

/-- An `Invite` record: an email invited to an event. -/
structure Invite where
  id : String
  eventId : String
  email : String
  status : String
deriving DecidableEq

/-- A `MobileMessage` record.  The Prisma schema file is absent from the
sources; the nullability of `deliveryStatus` is taken from its callers
(`MessagesController` renders `msg.deliveryStatus || 'delivered'`, and
`MessagesService.sendMessage` creates records without the field), so the
field is an `Option DeliveryState`, `none` when a create call omits it. -/
structure Message where
  id : Nat
  eventId : String
  attendeeId : Option String
  inviteId : Option String
  title : String
  body : String
  attachments : List String
  status : String
  deliveryStatus : Option DeliveryState
  unread : Bool
  deliveredAt : Option Nat
  createdAt : Nat
deriving DecidableEq

/-- A `Broadcast` record (only the fields `sendMessage` touches). -/
structure Broadcast where
  id : Nat
  eventId : String
  title : String
  bodyHtml : String
  status : String
  sentAt : Option Nat
deriving DecidableEq

/-- The record store: the four tables, the fresh-identifier counter for
message creation, and the request clock used for `new Date()`. -/
structure Store where
  attendees : List Attendee
  invites : List Invite
  messages : List Message
  broadcasts : List Broadcast
  nextId : Nat
  now : Nat
deriving DecidableEq

/-- The body of a `POST /api/events/:eventId/messages` request, as read by
`MessagesService.createMessage` (`title`, `body`, optional `attachments`,
`status`, `audience`, `attendeeId`, `inviteId`). -/
structure CreateMessagePayload where
  title : String
  body : String
  attachments : Option (List String)
  status : Option String
  audience : Option String
  attendeeId : Option String
  inviteId : Option String
deriving DecidableEq

/-- JavaScript truthiness of an optional string: `undefined` and the empty
string are falsy. -/
def truthy : Option String → Bool
  | none => false
  | some s => !(s == "")

/-- The default `data.status || 'sent'` applied at each create. -/
def orSent : Option String → String
  | none => "sent"
  | some s => if s == "" then "sent" else s

/-- The attachments default `data.attachments || \x7b\x7d`. -/
def orEmpty : Option (List String) → List String
  | none => []
  | some l => l

/-- The model of `prisma.mobileMessage.create`: appends the record and
bumps the fresh-identifier counter. -/
def Store.insertMessage (s : Store) (m : Message) : Store :=
  { s with messages := s.messages ++ [m], nextId := s.nextId + 1 }

/-- The record written by `createDirectMessage` (delivered immediately). -/
def directMessageRecord (s : Store) (eventId : String) (d : CreateMessagePayload) : Message :=
  { id := s.nextId, eventId := eventId, attendeeId := d.attendeeId, inviteId := none,
    title := d.title, body := d.body, attachments := orEmpty d.attachments,
    status := orSent d.status, deliveryStatus := some DeliveryState.delivered,
    unread := true, deliveredAt := some s.now, createdAt := s.nextId }

/-- The record written by `createQueuedMessage` (queued until acceptance). -/
def queuedMessageRecord (s : Store) (eventId : String) (d : CreateMessagePayload) : Message :=
  { id := s.nextId, eventId := eventId, attendeeId := none, inviteId := d.inviteId,
    title := d.title, body := d.body, attachments := orEmpty d.attachments,
    status := orSent d.status, deliveryStatus := some DeliveryState.queued,
    unread := true, deliveredAt := none, createdAt := s.nextId }

/-- The per-attendee record written inside the broadcast fan-out loop
(delivered immediately, `deliveredAt = new Date()`). -/
def broadcastDeliveredRecord (s : Store) (eventId : String) (d : CreateMessagePayload)
    (a : Attendee) : Message :=
  { id := s.nextId, eventId := eventId, attendeeId := some a.id, inviteId := none,
    title := d.title, body := d.body, attachments := orEmpty d.attachments,
    status := orSent d.status, deliveryStatus := some DeliveryState.delivered,
    unread := true, deliveredAt := some s.now, createdAt := s.nextId }

/-- The per-invite record written inside the broadcast queue loop. -/
def broadcastQueuedRecord (s : Store) (eventId : String) (d : CreateMessagePayload)
    (i : Invite) : Message :=
  { id := s.nextId, eventId := eventId, attendeeId := none, inviteId := some i.id,
    title := d.title, body := d.body, attachments := orEmpty d.attachments,
    status := orSent d.status, deliveryStatus := some DeliveryState.queued,
    unread := true, deliveredAt := none, createdAt := s.nextId }

/-- The `attendees.map(create)` fan-out of `createMessage`: one delivered
message per attendee, in list order; returns the new store and the created
messages. -/
def fanoutDelivered (eventId : String) (d : CreateMessagePayload) :
    List Attendee → Store → Store × List Message
  | [], s => (s, [])
  | a :: rest, s =>
      let m := broadcastDeliveredRecord s eventId d a
      let r := fanoutDelivered eventId d rest (s.insertMessage m)
      (r.1, m :: r.2)

/-- The `allInvites.map(create)` fan-out of `createMessage`: one queued
message per invite, in list order. -/
def fanoutQueued (eventId : String) (d : CreateMessagePayload) :
    List Invite → Store → Store × List Message
  | [], s => (s, [])
  | i :: rest, s =>
      let m := broadcastQueuedRecord s eventId d i
      let r := fanoutQueued eventId d rest (s.insertMessage m)
      (r.1, m :: r.2)

/-- The accepted-audience filter block of `createMessage`: attendees of the
event whose email appears among the emails of the event's `accepted`-status
invites or among the emails of the event's attendees with `acceptedAt` set. -/
def acceptedAudience (s : Store) (eventId : String) : List Attendee :=
  let allAttendees := s.attendees.filter (fun a => a.eventId == eventId)
  let attendeeEmails := allAttendees.map (fun a => a.email)
  let acceptedInvites := s.invites.filter (fun i =>
    i.eventId == eventId && attendeeEmails.contains i.email && i.status == "accepted")
  let attendeesWithAcceptedAt := s.attendees.filter (fun a =>
    a.eventId == eventId && attendeeEmails.contains a.email && a.acceptedAt.isSome)
  let allAcceptedEmails :=
    acceptedInvites.map (fun i => i.email) ++ attendeesWithAcceptedAt.map (fun a => a.email)
  allAttendees.filter (fun a => allAcceptedEmails.contains a.email)

/-- The operation `MessagesService.createMessage(eventId, data)`: direct path when
`data.attendeeId` is truthy, queued path when `data.inviteId` is truthy,
broadcast path when `status` is `'sent'` or absent (audience `invited`
queues for every invite and returns early; audience `accepted` filters the
attendee targets; any other audience keeps all attendees; the non-invited
broadcast then delivers to the chosen attendees and additionally queues for
every invite of the event), and otherwise the fallback single create.
Returns the new store and the representative message (`none` when the
fan-out created nothing). -/
def createMessage (eventId : String) (d : CreateMessagePayload) (s : Store) :
    Store × Option Message :=
  if truthy d.attendeeId then
    (s.insertMessage (directMessageRecord s eventId d), some (directMessageRecord s eventId d))
  else if truthy d.inviteId then
    (s.insertMessage (queuedMessageRecord s eventId d), some (queuedMessageRecord s eventId d))
  else if d.status == some "sent" || d.status == none then
    if d.audience == some "invited" then
      let allInvites := s.invites.filter (fun i => i.eventId == eventId)
      let r := fanoutQueued eventId d allInvites s
      (r.1, r.2.head?)
    else
      let attendees :=
        if d.audience == some "accepted" then acceptedAudience s eventId
        else s.attendees.filter (fun a => a.eventId == eventId)
      let r1 := fanoutDelivered eventId d attendees s
      let allInvites := r1.1.invites.filter (fun i => i.eventId == eventId)
      let r2 := fanoutQueued eventId d allInvites r1.1
      (r2.1, r1.2.head? <|> r2.2.head?)
  else
    let m : Message :=
      { id := s.nextId, eventId := eventId, attendeeId := d.attendeeId, inviteId := none,
        title := d.title, body := d.body, attachments := orEmpty d.attachments,
        status := orSent d.status, deliveryStatus := some DeliveryState.delivered,
        unread := truthy d.attendeeId, deliveredAt := some s.now, createdAt := s.nextId }
    (s.insertMessage m, some m)

/-- The `updateMany` predicate of `deliverQueuedMessages`:
`inviteId = inviteId ∧ deliveryStatus = 'queued'`. -/
def queuedFor (inviteId : String) (m : Message) : Bool :=
  m.inviteId == some inviteId && m.deliveryStatus == some DeliveryState.queued

/-- The `updateMany` data of `deliverQueuedMessages`: backfill the attendee,
flip to delivered, stamp `deliveredAt`. -/
def promoteRecord (attendeeId : String) (now : Nat) (m : Message) : Message :=
  { m with attendeeId := some attendeeId,
           deliveryStatus := some DeliveryState.delivered, deliveredAt := some now }

/-- The operation `MessagesService.deliverQueuedMessages(inviteId, attendeeId)`: counts
the queued messages of the invite; when none exist returns 0 immediately,
otherwise bulk-updates exactly the matching messages and returns the
`updateMany` count. -/
def deliverQueuedMessages (inviteId attendeeId : String) (s : Store) : Store × Nat :=
  let queuedMessages := s.messages.filter (queuedFor inviteId)
  if queuedMessages.length = 0 then (s, 0)
  else
    ({ s with messages := s.messages.map (fun m =>
        if queuedFor inviteId m then promoteRecord attendeeId s.now m else m) },
     queuedMessages.length)

/-- The per-attendee record written by `sendMessage`: status `'sent'`,
unread, and neither `deliveryStatus` nor `deliveredAt` supplied. -/
def sendRecord (s : Store) (eventId title body : String) (attachments : List String)
    (a : Attendee) : Message :=
  { id := s.nextId, eventId := eventId, attendeeId := some a.id, inviteId := none,
    title := title, body := body, attachments := attachments, status := "sent",
    deliveryStatus := none, unread := true, deliveredAt := none, createdAt := s.nextId }

/-- The `attendees.map(create)` fan-out of `sendMessage`. -/
def sendFanout (eventId title body : String) (attachments : List String) :
    List Attendee → Store → Store × List Message
  | [], s => (s, [])
  | a :: rest, s =>
      let m := sendRecord s eventId title body attachments a
      let r := sendFanout eventId title body attachments rest (s.insertMessage m)
      (r.1, m :: r.2)

/-- The operation `MessagesService.sendMessage(eventId, messageId)`: resolves the content
from a `MobileMessage` of the event or, failing that, a `Broadcast` of the
event (marking the broadcast sent); `none` models the `NotFoundException`
when neither exists.  Then creates one record per attendee of the event. -/
def sendMessage (eventId : String) (messageId : Nat) (s : Store) :
    Option (Store × Option Message) :=
  match s.messages.find? (fun m => m.id == messageId && m.eventId == eventId) with
  | some msg =>
      let atts := s.attendees.filter (fun a => a.eventId == eventId)
      let r := sendFanout eventId msg.title msg.body msg.attachments atts s
      some (r.1, r.2.head? <|> some msg)
  | none =>
      match s.broadcasts.find? (fun b => b.id == messageId && b.eventId == eventId) with
      | none => none
      | some b =>
          let s1 := { s with broadcasts := s.broadcasts.map (fun x =>
            if x.id == messageId then { x with status := "sent", sentAt := some s.now } else x) }
          let atts := s1.attendees.filter (fun a => a.eventId == eventId)
          let r := sendFanout eventId b.title b.bodyHtml [] atts s1
          some (r.1, r.2.head?)

/-- The operation `MessagesService.getMessages(eventId)`: every message of the event,
ordered by `createdAt` descending, with no further filter. -/
def getMessages (eventId : String) (s : Store) : List Message :=
  List.insertionSort (fun a b => b.createdAt ≤ a.createdAt)
    (s.messages.filter (fun m => m.eventId == eventId))

/-- The where-clause of `MobileService.getMobileMessages`: event match,
`deliveryStatus = 'delivered'`, and — only when the attendee argument is
truthy (the conditional spread) — attendee match. -/
def visibleFilter (eventId : String) (attendeeId : Option String) (m : Message) : Bool :=
  m.eventId == eventId && m.deliveryStatus == some DeliveryState.delivered &&
    (if truthy attendeeId then m.attendeeId == attendeeId else true)

/-- The `findMany` of `MobileService.getMobileMessages` (the
`listVisibleMessages` operation): delivered messages of the event,
restricted to the attendee when one is given, newest `createdAt` first. -/
def getMobileMessages (eventId : String) (attendeeId : Option String) (s : Store) :
    List Message :=
  List.insertionSort (fun a b => b.createdAt ≤ a.createdAt)
    (s.messages.filter (visibleFilter eventId attendeeId))

/-- The mobile message DTO produced by `mapMessageToDto` (the fields of our
model it projects; note it carries no delivery state). -/
structure MobileMessageDto where
  id : Nat
  eventId : String
  attendeeId : Option String
  title : String
  body : String
  attachments : List String
  unread : Bool
  createdAt : Nat
deriving DecidableEq

/-- The mapping `MobileService.mapMessageToDto`. -/
def mapMessageToDto (m : Message) : MobileMessageDto :=
  { id := m.id, eventId := m.eventId, attendeeId := m.attendeeId, title := m.title,
    body := m.body, attachments := m.attachments, unread := m.unread,
    createdAt := m.createdAt }

/-- The operation `MobileService.getMobileMessage(eventId, messageId)`: `findFirst` by id
and event with no delivery-state condition; `none` models the
`NotFoundException`. -/
def getMobileMessage (eventId : String) (messageId : Nat) (s : Store) :
    Option MobileMessageDto :=
  (s.messages.find? (fun m => m.id == messageId && m.eventId == eventId)).map mapMessageToDto

/-- The operation `MobileService.acknowledgeMessage(messageId)`: `findUnique` by id alone
(no event condition); `none` models the `NotFoundException`; on success
updates only the `unread` flag of that message. -/
def acknowledgeMessage (messageId : Nat) (s : Store) : Option Store :=
  match s.messages.find? (fun m => m.id == messageId) with
  | none => none
  | some _ => some { s with messages := s.messages.map (fun m =>
      if m.id == messageId then { m with unread := false } else m) }

/-- `MobileController.acknowledgeMessage`: the route handler takes the
`eventId` path parameter but passes only the message id to the service. -/
def ackMessageRoute (eventId : String) (messageId : Nat) (s : Store) : Option Store :=
  acknowledgeMessage messageId s

/-! ### Concrete records, stores and payloads used to instantiate the claim theorems -/

/-- Empty store used to instantiate the C1 theorem. -/
def storeC1 : Store :=
  { attendees := [], invites := [], messages := [], broadcasts := [],
    nextId := 0, now := 0 }

/-- A store holding one queued message, used to instantiate the C9
theorem: the admin listing returns it even though it is queued. -/
def msgC9 : Message :=
  { id := 0, eventId := "e1", attendeeId := none, inviteId := some "i1",
    title := "t", body := "b", attachments := [], status := "sent",
    deliveryStatus := some DeliveryState.queued, unread := true,
    deliveredAt := none, createdAt := 0 }

def storeC9 : Store :=
  { attendees := [], invites := [], messages := [msgC9], broadcasts := [],
    nextId := 1, now := 5 }

/-- Store with one queued message of invite `i1`, used to instantiate the
C5 theorem. -/
def msgC5 : Message :=
  { id := 0, eventId := "e1", attendeeId := none, inviteId := some "i1",
    title := "t", body := "b", attachments := [], status := "sent",
    deliveryStatus := some DeliveryState.queued, unread := true,
    deliveredAt := none, createdAt := 0 }

def storeC5 : Store :=
  { attendees := [], invites := [], messages := [msgC5], broadcasts := [],
    nextId := 1, now := 7 }

/-- Store with a single queued message, used to instantiate the C8
theorem: the by-id read returns it. -/
def msgC8 : Message :=
  { id := 3, eventId := "e1", attendeeId := none, inviteId := some "i1",
    title := "t", body := "b", attachments := [], status := "sent",
    deliveryStatus := some DeliveryState.queued, unread := true,
    deliveredAt := none, createdAt := 3 }

def storeC8 : Store :=
  { attendees := [], invites := [], messages := [msgC8], broadcasts := [],
    nextId := 4, now := 9 }

/-- Store with one unread message in event `e1`, used to instantiate the
C10 theorem at a different route `eventId` (`e2`). -/
def msgC10 : Message :=
  { id := 2, eventId := "e1", attendeeId := some "a1", inviteId := none,
    title := "t", body := "b", attachments := [], status := "sent",
    deliveryStatus := some DeliveryState.delivered, unread := true,
    deliveredAt := some 1, createdAt := 2 }

def storeC10 : Store :=
  { attendees := [], invites := [], messages := [msgC10], broadcasts := [],
    nextId := 3, now := 9 }

/-- Payload supplying both `attendeeId` and `inviteId`, and an empty store,
exercising the recipient-specification branch of `createMessage`. -/
def payloadC3 : CreateMessagePayload :=
  { title := "t", body := "b", attachments := none, status := none,
    audience := none, attendeeId := some "a1", inviteId := some "i1" }

def storeC3 : Store :=
  { attendees := [], invites := [], messages := [], broadcasts := [],
    nextId := 0, now := 4 }

/-- An attendee accepted only through its `acceptedAt` field (no invite at
all), used to instantiate the C7 theorem. -/
def attC7 : Attendee :=
  { id := "a1", eventId := "e1", email := "a1@x", acceptedAt := some 1 }

def storeC7 : Store :=
  { attendees := [attC7], invites := [], messages := [], broadcasts := [],
    nextId := 0, now := 0 }

/-- Number of messages in `queued` state in the store. -/
def queuedCount (s : Store) : Nat :=
  (s.messages.filter (fun m => m.deliveryStatus == some DeliveryState.queued)).length

/-- Event `e1` with one accepted attendee and one still-pending invite, and
the `audience = accepted` broadcast payload sent to it. -/
def attC2 : Attendee :=
  { id := "a1", eventId := "e1", email := "a1@x", acceptedAt := some 1 }

def invC2 : Invite :=
  { id := "i1", eventId := "e1", email := "b1@x", status := "pending" }

def storeC2 : Store :=
  { attendees := [attC2], invites := [invC2], messages := [], broadcasts := [],
    nextId := 0, now := 4 }

def payloadC2 : CreateMessagePayload :=
  { title := "t", body := "b", attachments := none, status := none,
    audience := some "accepted", attendeeId := none, inviteId := none }

/-- The delivery-state invariant of §8: `queued` implies a non-null
`inviteId` and a null `attendeeId`; `delivered` implies a non-null
`deliveredAt`. -/
def msgInvariant (m : Message) : Prop :=
  (m.deliveryStatus = some DeliveryState.queued →
    ¬ m.inviteId = none ∧ m.attendeeId = none) ∧
  (m.deliveryStatus = some DeliveryState.delivered → ¬ m.deliveredAt = none)

/-- Empty store used to instantiate the C4 invariant theorem. -/
def storeC4 : Store :=
  { attendees := [], invites := [], messages := [], broadcasts := [],
    nextId := 0, now := 0 }

/-! ### Basic lemmas about the store and the fan-out loops -/

instance : IsTotal Message (fun a b => b.createdAt ≤ a.createdAt) :=
  ⟨fun a b => Nat.le_total b.createdAt a.createdAt⟩

instance : IsTrans Message (fun a b => b.createdAt ≤ a.createdAt) :=
  ⟨fun _ _ _ hab hbc => Nat.le_trans hbc hab⟩

theorem insertMessage_messages (s : Store) (m : Message) :
    (s.insertMessage m).messages = s.messages ++ [m] := rfl

theorem insertMessage_frame (s : Store) (m : Message) :
    (s.insertMessage m).attendees = s.attendees ∧ (s.insertMessage m).invites = s.invites ∧
    (s.insertMessage m).broadcasts = s.broadcasts ∧ (s.insertMessage m).now = s.now :=
  ⟨rfl, rfl, rfl, rfl⟩

theorem fanoutDelivered_messages (e : String) (d : CreateMessagePayload) :
    ∀ (atts : List Attendee) (s : Store),
      (fanoutDelivered e d atts s).1.messages = s.messages ++ (fanoutDelivered e d atts s).2
  | [], s => by simp [fanoutDelivered]
  | a :: rest, s => by
    simp only [fanoutDelivered]
    rw [fanoutDelivered_messages e d rest]
    simp [Store.insertMessage]

theorem fanoutDelivered_frame (e : String) (d : CreateMessagePayload) :
    ∀ (atts : List Attendee) (s : Store),
      (fanoutDelivered e d atts s).1.attendees = s.attendees ∧
      (fanoutDelivered e d atts s).1.invites = s.invites ∧
      (fanoutDelivered e d atts s).1.now = s.now
  | [], _ => ⟨rfl, rfl, rfl⟩
  | a :: rest, s => fanoutDelivered_frame e d rest _

theorem fanoutDelivered_created (e : String) (d : CreateMessagePayload) :
    ∀ (atts : List Attendee) (s : Store), ∀ m ∈ (fanoutDelivered e d atts s).2,
      m.deliveryStatus = some DeliveryState.delivered ∧ m.deliveredAt = some s.now ∧
      m.inviteId = none ∧ ∃ a ∈ atts, m.attendeeId = some a.id
  | [], _, m, hm => by simp [fanoutDelivered] at hm
  | a :: rest, s, m, hm => by
    simp only [fanoutDelivered, List.mem_cons] at hm
    rcases hm with rfl | hm
    · exact ⟨rfl, rfl, rfl, a, List.mem_cons_self a rest, rfl⟩
    · obtain ⟨h1, h2, h3, b, hb, h4⟩ := fanoutDelivered_created e d rest _ m hm
      exact ⟨h1, h2, h3, b, List.mem_cons_of_mem a hb, h4⟩

theorem fanoutQueued_messages (e : String) (d : CreateMessagePayload) :
    ∀ (invs : List Invite) (s : Store),
      (fanoutQueued e d invs s).1.messages = s.messages ++ (fanoutQueued e d invs s).2
  | [], s => by simp [fanoutQueued]
  | i :: rest, s => by
    simp only [fanoutQueued]
    rw [fanoutQueued_messages e d rest]
    simp [Store.insertMessage]

theorem fanoutQueued_frame (e : String) (d : CreateMessagePayload) :
    ∀ (invs : List Invite) (s : Store),
      (fanoutQueued e d invs s).1.attendees = s.attendees ∧
      (fanoutQueued e d invs s).1.invites = s.invites ∧
      (fanoutQueued e d invs s).1.now = s.now
  | [], _ => ⟨rfl, rfl, rfl⟩
  | i :: rest, s => fanoutQueued_frame e d rest _

theorem fanoutQueued_created (e : String) (d : CreateMessagePayload) :
    ∀ (invs : List Invite) (s : Store), ∀ m ∈ (fanoutQueued e d invs s).2,
      m.deliveryStatus = some DeliveryState.queued ∧ m.deliveredAt = none ∧
      m.attendeeId = none ∧ ∃ i ∈ invs, m.inviteId = some i.id
  | [], _, m, hm => by simp [fanoutQueued] at hm
  | i :: rest, s, m, hm => by
    simp only [fanoutQueued, List.mem_cons] at hm
    rcases hm with rfl | hm
    · exact ⟨rfl, rfl, rfl, i, List.mem_cons_self i rest, rfl⟩
    · obtain ⟨h1, h2, h3, b, hb, h4⟩ := fanoutQueued_created e d rest _ m hm
      exact ⟨h1, h2, h3, b, List.mem_cons_of_mem i hb, h4⟩

theorem fanoutQueued_length (e : String) (d : CreateMessagePayload) :
    ∀ (invs : List Invite) (s : Store), (fanoutQueued e d invs s).2.length = invs.length
  | [], _ => rfl
  | i :: rest, s => by
    simp only [fanoutQueued, List.length_cons]
    rw [fanoutQueued_length e d rest]

theorem sendFanout_messages (e t b : String) (att : List String) :
    ∀ (atts : List Attendee) (s : Store),
      (sendFanout e t b att atts s).1.messages = s.messages ++ (sendFanout e t b att atts s).2
  | [], s => by simp [sendFanout]
  | a :: rest, s => by
    simp only [sendFanout]
    rw [sendFanout_messages e t b att rest]
    simp [Store.insertMessage]

theorem sendFanout_created (e t b : String) (att : List String) :
    ∀ (atts : List Attendee) (s : Store), ∀ m ∈ (sendFanout e t b att atts s).2,
      m.deliveryStatus = none ∧ m.deliveredAt = none
  | [], _, m, hm => by simp [sendFanout] at hm
  | a :: rest, s, m, hm => by
    simp only [sendFanout, List.mem_cons] at hm
    rcases hm with rfl | hm
    · exact ⟨rfl, rfl⟩
    · exact sendFanout_created e t b att rest _ m hm

theorem find_eq_some_of_unique {α : Type} {p : α → Bool} {l : List α} {a : α}
    (hmem : a ∈ l) (hpa : p a = true) (huniq : ∀ x ∈ l, p x = true → x = a) :
    l.find? p = some a := by
  induction l with
  | nil => cases hmem
  | cons x xs ih =>
    by_cases hx : p x = true
    · rw [List.find?_cons_of_pos xs hx, huniq x (List.mem_cons_self x xs) hx]
    · rw [List.find?_cons_of_neg xs (by simpa using hx)]
      have hax : a ∈ xs := by
        rcases List.mem_cons.1 hmem with h | h
        · exact absurd (h ▸ hpa) hx
        · exact h
      exact ih hax (fun y hy hpy => huniq y (List.mem_cons_of_mem _ hy) hpy)

theorem mem_eq_of_nodup_map {α β : Type} (f : α → β) {l : List α}
    (h : (l.map f).Nodup) {a b : α} (ha : a ∈ l) (hb : b ∈ l) (heq : f a = f b) : a = b := by
  have hp : l.Pairwise (fun x y => f x ≠ f y) := List.pairwise_map.1 h
  by_contra hne
  exact hp.forall (fun x y hxy => fun e => hxy e.symm) ha hb hne heq

theorem visibleFilter_eq_true (e : String) (att : Option String) (m : Message) :
    visibleFilter e att m = true ↔
      m.eventId = e ∧ m.deliveryStatus = some DeliveryState.delivered ∧
        (truthy att = true → m.attendeeId = att) := by
  by_cases h : truthy att = true
  · simp [visibleFilter, h, and_assoc]
  · simp [visibleFilter, h]

theorem map_if_id {α : Type} (p : α → Bool) (g : α → α) :
    ∀ (l : List α), (∀ m ∈ l, ¬ p m = true) →
      l.map (fun m => if p m then g m else m) = l
  | [], _ => rfl
  | x :: xs, h => by
    simp only [List.map_cons]
    rw [if_neg (h x (List.mem_cons_self x xs)),
        map_if_id p g xs (fun m hm => h m (List.mem_cons_of_mem x hm))]

theorem deliver_of_no_queued (iid aid : String) (t : Store)
    (h : t.messages.filter (queuedFor iid) = []) :
    deliverQueuedMessages iid aid t = (t, 0) := by
  unfold deliverQueuedMessages
  simp [h]

theorem createMessage_direct_eq (e : String) (d : CreateMessagePayload) (s : Store)
    (h : truthy d.attendeeId = true) :
    createMessage e d s =
      (s.insertMessage (directMessageRecord s e d), some (directMessageRecord s e d)) := by
  simp [createMessage, h]

theorem deliver_messages_map (iid aid : String) (s : Store) :
    (deliverQueuedMessages iid aid s).1.messages =
      s.messages.map (fun m =>
        if queuedFor iid m then promoteRecord aid s.now m else m) := by
  by_cases h : (s.messages.filter (queuedFor iid)).length = 0
  · have hnil : s.messages.filter (queuedFor iid) = [] := List.length_eq_zero.1 h
    rw [deliver_of_no_queued iid aid s hnil,
      map_if_id _ _ _ (List.filter_eq_nil_iff.1 hnil)]
  · unfold deliverQueuedMessages
    simp [h]

theorem deliver_count_eq (iid aid : String) (s : Store) :
    (deliverQueuedMessages iid aid s).2 = (s.messages.filter (queuedFor iid)).length := by
  by_cases h : (s.messages.filter (queuedFor iid)).length = 0
  · rw [deliver_of_no_queued iid aid s (List.length_eq_zero.1 h), h]
  · unfold deliverQueuedMessages
    simp [h]

theorem deliver_frame (iid aid : String) (s : Store) :
    (deliverQueuedMessages iid aid s).1.attendees = s.attendees ∧
    (deliverQueuedMessages iid aid s).1.invites = s.invites := by
  unfold deliverQueuedMessages
  by_cases h : (s.messages.filter (queuedFor iid)).length = 0
  · simp [h]
  · simp [h]

/-! ### Claim theorems -/

/-- C1: `listVisibleMessages` (`MobileService.getMobileMessages`) returns
exactly the messages of the event whose delivery state is `delivered`,
restricted to the given attendee when one is provided (a truthy
`attendeeId`), ordered newest-created first; it never returns a message in
`queued` state. -/
theorem getMobileMessages_delivered_only (e : String) (att : Option String) (s : Store) :
    (∀ m, m ∈ getMobileMessages e att s ↔
        m ∈ s.messages ∧ m.eventId = e ∧ m.deliveryStatus = some DeliveryState.delivered ∧
          (truthy att = true → m.attendeeId = att)) ∧
    List.Sorted (fun a b => b.createdAt ≤ a.createdAt) (getMobileMessages e att s) ∧
    (∀ m ∈ getMobileMessages e att s, ¬ m.deliveryStatus = some DeliveryState.queued) := by
  refine ⟨fun m => ?_, ?_, fun m hm hq => ?_⟩
  · rw [getMobileMessages, List.mem_insertionSort, List.mem_filter, visibleFilter_eq_true]
  · exact List.sorted_insertionSort _ _
  · rw [getMobileMessages, List.mem_insertionSort, List.mem_filter,
      visibleFilter_eq_true] at hm
    rw [hm.2.2.1] at hq
    simp at hq

theorem getMobileMessages_delivered_only_sample :
    (∀ m, m ∈ getMobileMessages "e1" (some "a1") storeC1 ↔
        m ∈ storeC1.messages ∧ m.eventId = "e1" ∧
          m.deliveryStatus = some DeliveryState.delivered ∧
          (truthy (some "a1") = true → m.attendeeId = some "a1")) ∧
    List.Sorted (fun a b => b.createdAt ≤ a.createdAt)
      (getMobileMessages "e1" (some "a1") storeC1) ∧
    (∀ m ∈ getMobileMessages "e1" (some "a1") storeC1,
      ¬ m.deliveryStatus = some DeliveryState.queued) :=
  getMobileMessages_delivered_only "e1" (some "a1") storeC1

/-- C9: the admin-side listing `MessagesService.getMessages(eventId)`
returns every message of the event regardless of delivery state, ordered
by creation time descending, with no attendee or visibility filter. -/
theorem getMessages_all_states (e : String) (s : Store) :
    (∀ m, m ∈ getMessages e s ↔ m ∈ s.messages ∧ m.eventId = e) ∧
    List.Sorted (fun a b => b.createdAt ≤ a.createdAt) (getMessages e s) := by
  refine ⟨fun m => ?_, List.sorted_insertionSort _ _⟩
  rw [getMessages, List.mem_insertionSort, List.mem_filter]
  simp

theorem getMessages_all_states_sample :
    ((∀ m, m ∈ getMessages "e1" storeC9 ↔ m ∈ storeC9.messages ∧ m.eventId = "e1") ∧
      List.Sorted (fun a b => b.createdAt ≤ a.createdAt) (getMessages "e1" storeC9)) ∧
    msgC9 ∈ getMessages "e1" storeC9 ∧
    msgC9.deliveryStatus = some DeliveryState.queued :=
  ⟨getMessages_all_states "e1" storeC9,
   ((getMessages_all_states "e1" storeC9).1 msgC9).2 ⟨by decide, rfl⟩, rfl⟩

/-- C5: `promoteQueuedMessages` (`deliverQueuedMessages`) updates exactly
the messages matching the given invite in `queued` state, setting on each
the given attendee, `delivered` state and a non-null `deliveredAt`; it
returns the number of messages so promoted, and 0 (nothing queued) leaves
the store untouched and is not an error. -/
theorem deliverQueuedMessages_spec (iid aid : String) (s : Store) :
    (deliverQueuedMessages iid aid s).2 = (s.messages.filter (queuedFor iid)).length ∧
    (deliverQueuedMessages iid aid s).1.messages =
      s.messages.map (fun m => if queuedFor iid m then promoteRecord aid s.now m else m) ∧
    ((s.messages.filter (queuedFor iid)).length = 0 →
      (deliverQueuedMessages iid aid s).1 = s) ∧
    (∀ m, (promoteRecord aid s.now m).attendeeId = some aid ∧
      (promoteRecord aid s.now m).deliveryStatus = some DeliveryState.delivered ∧
      (promoteRecord aid s.now m).deliveredAt = some s.now) ∧
    (deliverQueuedMessages iid aid s).1.attendees = s.attendees ∧
    (deliverQueuedMessages iid aid s).1.invites = s.invites := by
  refine ⟨deliver_count_eq iid aid s, deliver_messages_map iid aid s, fun h => ?_,
    fun m => ⟨rfl, rfl, rfl⟩, (deliver_frame iid aid s).1, (deliver_frame iid aid s).2⟩
  rw [deliver_of_no_queued iid aid s (List.length_eq_zero.1 h)]

theorem deliverQueuedMessages_spec_sample :
    ((deliverQueuedMessages "i1" "a1" storeC5).2 =
        (storeC5.messages.filter (queuedFor "i1")).length ∧
      (deliverQueuedMessages "i1" "a1" storeC5).1.messages =
        storeC5.messages.map (fun m =>
          if queuedFor "i1" m then promoteRecord "a1" storeC5.now m else m) ∧
      ((storeC5.messages.filter (queuedFor "i1")).length = 0 →
        (deliverQueuedMessages "i1" "a1" storeC5).1 = storeC5) ∧
      (∀ m, (promoteRecord "a1" storeC5.now m).attendeeId = some "a1" ∧
        (promoteRecord "a1" storeC5.now m).deliveryStatus = some DeliveryState.delivered ∧
        (promoteRecord "a1" storeC5.now m).deliveredAt = some storeC5.now) ∧
      (deliverQueuedMessages "i1" "a1" storeC5).1.attendees = storeC5.attendees ∧
      (deliverQueuedMessages "i1" "a1" storeC5).1.invites = storeC5.invites) ∧
    (deliverQueuedMessages "i1" "a1" storeC5).2 = 1 :=
  ⟨deliverQueuedMessages_spec "i1" "a1" storeC5, by decide⟩

/-- C6: promoting twice with the same invite and attendee yields `(N, 0)`:
the second call promotes nothing, is not an error, and leaves the store —
in particular every message promoted by the first call — unchanged. -/
theorem deliverQueuedMessages_idem (iid aid : String) (s : Store) :
    (deliverQueuedMessages iid aid (deliverQueuedMessages iid aid s).1).2 = 0 ∧
    (deliverQueuedMessages iid aid (deliverQueuedMessages iid aid s).1).1 =
      (deliverQueuedMessages iid aid s).1 := by
  have hkey : (deliverQueuedMessages iid aid s).1.messages.filter (queuedFor iid) = [] := by
    rw [deliver_messages_map iid aid s]
    apply List.filter_eq_nil_iff.2
    intro m hm
    rcases List.mem_map.1 hm with ⟨x, hx, rfl⟩
    by_cases hq : queuedFor iid x = true
    · rw [if_pos hq]
      simp [queuedFor, promoteRecord]
    · rw [if_neg hq]
      exact hq
  have h2 := deliver_of_no_queued iid aid _ hkey
  exact ⟨by rw [h2], by rw [h2]⟩

/-- C8: the recipient-facing single-message read
(`MobileService.getMobileMessage`) applies no delivery-state filter: a
`queued` message of the event is found by its id and returned (mapped to
its DTO) rather than rejected with `NotFound`. -/
theorem getMobileMessage_ignores_state (e : String) (s : Store) (m : Message)
    (hm : m ∈ s.messages) (he : m.eventId = e)
    (hids : (s.messages.map (fun x => x.id)).Nodup)
    (hq : m.deliveryStatus = some DeliveryState.queued) :
    getMobileMessage e m.id s = some (mapMessageToDto m) := by
  have huniq : ∀ x ∈ s.messages, (x.id == m.id && x.eventId == e) = true → x = m := by
    intro x hx hpx
    simp only [Bool.and_eq_true, beq_iff_eq] at hpx
    exact mem_eq_of_nodup_map (fun y => y.id) hids hx hm hpx.1
  unfold getMobileMessage
  rw [find_eq_some_of_unique hm (by simp [he]) huniq]
  rfl

theorem getMobileMessage_ignores_state_sample :
    getMobileMessage "e1" msgC8.id storeC8 = some (mapMessageToDto msgC8) :=
  getMobileMessage_ignores_state "e1" storeC8 msgC8 (by decide) rfl (by decide) rfl

/-- C10: `acknowledgeMessage(id)` fails with `NotFound` exactly when no
message with that id exists; on success it flips only the `unread` flag of
the messages with that id and leaves every other record untouched; the
route handler ignores the `eventId` path parameter entirely. -/
theorem acknowledgeMessage_spec (mid : Nat) (s : Store) :
    (acknowledgeMessage mid s = none ↔ ∀ m ∈ s.messages, ¬ m.id = mid) ∧
    (∀ t, acknowledgeMessage mid s = some t →
      t.messages = s.messages.map (fun m =>
        if m.id == mid then { m with unread := false } else m) ∧
      t.attendees = s.attendees ∧ t.invites = s.invites ∧ t.broadcasts = s.broadcasts) ∧
    (∀ e1 e2, ackMessageRoute e1 mid s = ackMessageRoute e2 mid s) := by
  refine ⟨?_, ?_, fun e1 e2 => rfl⟩
  · cases h : s.messages.find? (fun m => m.id == mid) with
    | none =>
      simp only [acknowledgeMessage, h]
      refine ⟨fun _ m hm hmid => ?_, fun _ => trivial⟩
      have := List.find?_eq_none.1 h m hm
      simp [hmid] at this
    | some x =>
      simp only [acknowledgeMessage, h]
      refine ⟨fun hc => Option.noConfusion hc, fun hall => absurd ?_ (hall x ?_)⟩
      · simpa using List.find?_some h
      · exact List.mem_of_find?_eq_some h
  · intro t ht
    cases h : s.messages.find? (fun m => m.id == mid) with
    | none =>
      simp only [acknowledgeMessage, h] at ht
      cases ht
    | some x =>
      simp only [acknowledgeMessage, h, Option.some.injEq] at ht
      rw [← ht]
      exact ⟨rfl, rfl, rfl, rfl⟩

theorem acknowledgeMessage_spec_sample :
    ((acknowledgeMessage 2 storeC10 = none ↔ ∀ m ∈ storeC10.messages, ¬ m.id = 2) ∧
      (∀ t, acknowledgeMessage 2 storeC10 = some t →
        t.messages = storeC10.messages.map (fun m =>
          if m.id == 2 then { m with unread := false } else m) ∧
        t.attendees = storeC10.attendees ∧ t.invites = storeC10.invites ∧
        t.broadcasts = storeC10.broadcasts) ∧
      (∀ e1 e2, ackMessageRoute e1 2 storeC10 = ackMessageRoute e2 2 storeC10)) ∧
    acknowledgeMessage 2 storeC10 =
      some { storeC10 with messages := [{ msgC10 with unread := false }] } :=
  ⟨acknowledgeMessage_spec 2 storeC10, by decide⟩

/-- C3 counterexample: called with both `attendeeId` and `inviteId` set,
`createMessage` does not reject and does write: it creates one message (a
`delivered` direct message for the attendee), so the store changes. -/
theorem createMessage_both_ids_cex :
    (createMessage "e1" payloadC3 storeC3).1.messages.length = 1 ∧
    ¬ (createMessage "e1" payloadC3 storeC3).1 = storeC3 ∧
    ∃ m ∈ (createMessage "e1" payloadC3 storeC3).1.messages,
      m.deliveryStatus = some DeliveryState.delivered ∧ m.attendeeId = some "a1" ∧
        m.inviteId = none := by
  decide

/-- C3 (amended): whenever `attendeeId` is truthy — in particular when both
`attendeeId` and `inviteId` are supplied — `createMessage` takes the
direct-message path with no rejection: it appends exactly one `delivered`
message addressed to the attendee, ignoring `inviteId` (stored null). -/
theorem createMessage_direct_path (e : String) (d : CreateMessagePayload) (s : Store)
    (h : truthy d.attendeeId = true) :
    (createMessage e d s).1.messages = s.messages ++ [directMessageRecord s e d] ∧
    (createMessage e d s).2 = some (directMessageRecord s e d) ∧
    (directMessageRecord s e d).deliveryStatus = some DeliveryState.delivered ∧
    (directMessageRecord s e d).attendeeId = d.attendeeId ∧
    (directMessageRecord s e d).inviteId = none ∧
    (directMessageRecord s e d).deliveredAt = some s.now := by
  rw [createMessage_direct_eq e d s h]
  exact ⟨rfl, rfl, rfl, rfl, rfl, rfl⟩

theorem createMessage_direct_path_sample :
    (createMessage "e1" payloadC3 storeC3).1.messages =
      storeC3.messages ++ [directMessageRecord storeC3 "e1" payloadC3] ∧
    (createMessage "e1" payloadC3 storeC3).2 =
      some (directMessageRecord storeC3 "e1" payloadC3) ∧
    (directMessageRecord storeC3 "e1" payloadC3).deliveryStatus =
      some DeliveryState.delivered ∧
    (directMessageRecord storeC3 "e1" payloadC3).attendeeId = payloadC3.attendeeId ∧
    (directMessageRecord storeC3 "e1" payloadC3).inviteId = none ∧
    (directMessageRecord storeC3 "e1" payloadC3).deliveredAt = some storeC3.now :=
  createMessage_direct_path "e1" payloadC3 storeC3 (by decide)

/-- C7: under per-event uniqueness of attendee emails, an attendee of the
event is in the `accepted` audience exactly when the event has an
`accepted`-status invite with the attendee's email or the attendee's own
`acceptedAt` is non-null — the union of the two acceptance signals. -/
theorem acceptedAudience_union (s : Store) (e : String) (a : Attendee)
    (hp : (s.attendees.filter (fun x => x.eventId == e)).Pairwise
      (fun x y => ¬ x.email = y.email))
    (ha : a ∈ s.attendees) (hae : a.eventId = e) :
    a ∈ acceptedAudience s e ↔
      ((∃ i ∈ s.invites, i.eventId = e ∧ i.status = "accepted" ∧ i.email = a.email) ∨
        ¬ a.acceptedAt = none) := by
  have haA : a ∈ s.attendees.filter (fun x => x.eventId == e) :=
    List.mem_filter.2 ⟨ha, by simp [hae]⟩
  have hsym : Symmetric (fun x y : Attendee => ¬ x.email = y.email) :=
    fun x y h heq => h heq.symm
  constructor
  · intro hmem
    simp only [acceptedAudience] at hmem
    rw [List.mem_filter] at hmem
    have hc : a.email ∈
        (s.invites.filter (fun i => i.eventId == e &&
            ((s.attendees.filter (fun x => x.eventId == e)).map
              (fun x => x.email)).contains i.email && i.status == "accepted")).map
          (fun i => i.email) ++
        (s.attendees.filter (fun x => x.eventId == e &&
            ((s.attendees.filter (fun y => y.eventId == e)).map
              (fun y => y.email)).contains x.email && x.acceptedAt.isSome)).map
          (fun x => x.email) := by
      simpa using hmem.2
    rcases List.mem_append.1 hc with hc1 | hc2
    · rcases List.mem_map.1 hc1 with ⟨i, hi, hie⟩
      rw [List.mem_filter] at hi
      have hcond := hi.2
      simp only [Bool.and_eq_true, beq_iff_eq] at hcond
      exact Or.inl ⟨i, hi.1, hcond.1.1, hcond.2, hie⟩
    · rcases List.mem_map.1 hc2 with ⟨b, hb, hbe⟩
      rw [List.mem_filter] at hb
      have hcond := hb.2
      simp only [Bool.and_eq_true, beq_iff_eq] at hcond
      have hbA : b ∈ s.attendees.filter (fun x => x.eventId == e) :=
        List.mem_filter.2 ⟨hb.1, by simp [hcond.1.1]⟩
      have hba : b = a := by
        by_contra hne
        exact hp.forall hsym hbA haA hne hbe
      right
      rw [← hba]
      exact Option.isSome_iff_ne_none.1 hcond.2
  · intro hor
    simp only [acceptedAudience]
    rw [List.mem_filter]
    refine ⟨haA, ?_⟩
    have hmemEmail : a.email ∈
        (s.attendees.filter (fun x => x.eventId == e)).map (fun x => x.email) :=
      List.mem_map.2 ⟨a, haA, rfl⟩
    rcases hor with ⟨i, hi, hie, hist, hieq⟩ | hacc
    · have hiF : i ∈ s.invites.filter (fun j => j.eventId == e &&
          ((s.attendees.filter (fun x => x.eventId == e)).map
            (fun x => x.email)).contains j.email && j.status == "accepted") := by
        refine List.mem_filter.2 ⟨hi, ?_⟩
        simp [hie, hist, hieq, hmemEmail]
      have : a.email ∈ (s.invites.filter (fun j => j.eventId == e &&
          ((s.attendees.filter (fun x => x.eventId == e)).map
            (fun x => x.email)).contains j.email && j.status == "accepted")).map
          (fun j => j.email) :=
        List.mem_map.2 ⟨i, hiF, hieq⟩
      exact List.elem_eq_true_of_mem (List.mem_append.2 (Or.inl this))
    · have haF : a ∈ s.attendees.filter (fun x => x.eventId == e &&
          ((s.attendees.filter (fun y => y.eventId == e)).map
            (fun y => y.email)).contains x.email && x.acceptedAt.isSome) := by
        refine List.mem_filter.2 ⟨ha, ?_⟩
        simp [hae, hmemEmail, Option.isSome_iff_ne_none.2 hacc]
      have : a.email ∈ (s.attendees.filter (fun x => x.eventId == e &&
          ((s.attendees.filter (fun y => y.eventId == e)).map
            (fun y => y.email)).contains x.email && x.acceptedAt.isSome)).map
          (fun x => x.email) :=
        List.mem_map.2 ⟨a, haF, rfl⟩
      exact List.elem_eq_true_of_mem (List.mem_append.2 (Or.inr this))

theorem acceptedAudience_union_sample :
    (attC7 ∈ acceptedAudience storeC7 "e1" ↔
      ((∃ i ∈ storeC7.invites, i.eventId = "e1" ∧ i.status = "accepted" ∧
          i.email = attC7.email) ∨ ¬ attC7.acceptedAt = none)) ∧
    attC7 ∈ acceptedAudience storeC7 "e1" :=
  ⟨acceptedAudience_union storeC7 "e1" attC7 (by decide) (by decide) rfl, by decide⟩

theorem truthy_ne_none {o : Option String} (h : truthy o = true) : ¬ o = none := by
  cases o with
  | none => simp [truthy] at h
  | some x => simp

/-- The non-`invited` broadcast path of `createMessage`: the resulting
message table is the old one, then one delivered message per chosen
attendee, then one queued message per invite of the event. -/
theorem broadcast_messages (e : String) (d : CreateMessagePayload) (s : Store)
    (h1 : truthy d.attendeeId = false) (h2 : truthy d.inviteId = false)
    (h3 : (d.status == some "sent" || d.status == none) = true)
    (h4 : (d.audience == some "invited") = false)
    (atts : List Attendee)
    (hatts : atts = (if (d.audience == some "accepted") = true then acceptedAudience s e
      else s.attendees.filter (fun a => a.eventId == e))) :
    (createMessage e d s).1.messages =
      s.messages ++ (fanoutDelivered e d atts s).2 ++
        (fanoutQueued e d (s.invites.filter (fun i => i.eventId == e))
          (fanoutDelivered e d atts s).1).2 := by
  subst hatts
  simp only [createMessage, h1, h2, h3, h4, Bool.false_eq_true, if_false, if_true]
  rw [(fanoutDelivered_frame e d _ s).2.1]
  rw [fanoutQueued_messages, fanoutDelivered_messages, List.append_assoc]

/-- C2 counterexample: a broadcast with `audience = accepted` on an event
with a pending invite creates a `queued` message referencing that invite —
the accepted-audience path falls through to the queue-for-all-invites
loop, so the queued set is not empty. -/
theorem acceptedBroadcast_queues_cex :
    ∃ m ∈ (createMessage "e1" payloadC2 storeC2).1.messages,
      m.deliveryStatus = some DeliveryState.queued ∧ m.inviteId = some "i1" ∧
        ¬ m ∈ storeC2.messages := by
  decide

/-- C2 (amended): a broadcast with `audience = accepted` creates delivered
messages only for accepted attendees, but additionally creates one queued
message per invite of the event: the number of queued messages grows by
exactly the number of the event's invites,each new queued message references
an invite of the event, and each new delivered message targets a member of
the accepted audience. -/
theorem acceptedBroadcast_queue_count (e : String) (d : CreateMessagePayload) (s : Store)
    (h1 : truthy d.attendeeId = false) (h2 : truthy d.inviteId = false)
    (h3 : d.status = some "sent" ∨ d.status = none)
    (h4 : d.audience = some "accepted") :
    queuedCount (createMessage e d s).1 =
      queuedCount s + (s.invites.filter (fun i => i.eventId == e)).length ∧
    ∀ m ∈ (createMessage e d s).1.messages, ¬ m ∈ s.messages →
      (m.deliveryStatus = some DeliveryState.queued →
        ∃ i ∈ s.invites, i.eventId = e ∧ m.inviteId = some i.id) ∧
      (m.deliveryStatus = some DeliveryState.delivered →
        ∃ a ∈ acceptedAudience s e, m.attendeeId = some a.id) := by
  have hb : (d.status == some "sent" || d.status == none) = true := by
    rcases h3 with h | h <;> simp [h]
  have hinv : (d.audience == some "invited") = false := by
    rw [h4]; decide
  have hacc : (d.audience == some "accepted") = true := by
    rw [h4]; decide
  have hmsg := broadcast_messages e d s h1 h2 hb hinv (acceptedAudience s e)
    (by simp [hacc])
  constructor
  · unfold queuedCount
    rw [hmsg, List.filter_append, List.filter_append, List.length_append,
      List.length_append]
    have hdel : (fanoutDelivered e d (acceptedAudience s e) s).2.filter
        (fun m => m.deliveryStatus == some DeliveryState.queued) = [] := by
      apply List.filter_eq_nil_iff.2
      intro m hm
      have hst := (fanoutDelivered_created e d _ s m hm).1
      simp [hst]
    have hq : (fanoutQueued e d (s.invites.filter (fun i => i.eventId == e))
          (fanoutDelivered e d (acceptedAudience s e) s).1).2.filter
        (fun m => m.deliveryStatus == some DeliveryState.queued) =
        (fanoutQueued e d (s.invites.filter (fun i => i.eventId == e))
          (fanoutDelivered e d (acceptedAudience s e) s).1).2 := by
      apply List.filter_eq_self.2
      intro m hm
      have hst := (fanoutQueued_created e d _ _ m hm).1
      simp [hst]
    rw [hdel, hq, fanoutQueued_length]
    simp
  · intro m hm hnot
    rw [hmsg] at hm
    rcases List.mem_append.1 hm with hm1 | hmq
    · rcases List.mem_append.1 hm1 with h | h
      · exact absurd h hnot
      · obtain ⟨hst, hda, hinv0, a, haa, hid⟩ := fanoutDelivered_created e d _ s m h
        refine ⟨fun hq => ?_, fun _ => ⟨a, haa, hid⟩⟩
        rw [hst] at hq
        simp at hq
    · obtain ⟨hst, hda, hatt, i, hiF, hid⟩ := fanoutQueued_created e d _ _ m hmq
      have hi := List.mem_filter.1 hiF
      refine ⟨fun _ => ⟨i, hi.1, by simpa using hi.2, hid⟩, fun hdel => ?_⟩
      rw [hst] at hdel
      simp at hdel

theorem acceptedBroadcast_queue_count_sample :
    (queuedCount (createMessage "e1" payloadC2 storeC2).1 =
      queuedCount storeC2 +
        (storeC2.invites.filter (fun i => i.eventId == "e1")).length ∧
    ∀ m ∈ (createMessage "e1" payloadC2 storeC2).1.messages, ¬ m ∈ storeC2.messages →
      (m.deliveryStatus = some DeliveryState.queued →
        ∃ i ∈ storeC2.invites, i.eventId = "e1" ∧ m.inviteId = some i.id) ∧
      (m.deliveryStatus = some DeliveryState.delivered →
        ∃ a ∈ acceptedAudience storeC2 "e1", m.attendeeId = some a.id)) ∧
    queuedCount (createMessage "e1" payloadC2 storeC2).1 = 1 :=
  ⟨acceptedBroadcast_queue_count "e1" payloadC2 storeC2 rfl rfl (Or.inr rfl) rfl,
   by decide⟩

/-- Every message in the store after `createMessage` is an old message, a
freshly delivered one (with `deliveredAt` stamped), or a freshly queued one
(with an invite reference and no attendee). -/
theorem mem_createMessage_cases (e : String) (d : CreateMessagePayload) (s : Store) :
    ∀ m ∈ (createMessage e d s).1.messages,
      m ∈ s.messages ∨
      (m.deliveryStatus = some DeliveryState.delivered ∧ m.deliveredAt = some s.now) ∨
      (m.deliveryStatus = some DeliveryState.queued ∧ ¬ m.inviteId = none ∧
        m.attendeeId = none) := by
  intro m hm
  by_cases h1 : truthy d.attendeeId = true
  · rw [createMessage_direct_eq e d s h1, insertMessage_messages] at hm
    rcases List.mem_append.1 hm with h | h
    · exact Or.inl h
    · rw [List.mem_singleton.1 h]
      exact Or.inr (Or.inl ⟨rfl, rfl⟩)
  · have h1f : truthy d.attendeeId = false := by simpa using h1
    by_cases h2 : truthy d.inviteId = true
    · have hq : createMessage e d s =
          (s.insertMessage (queuedMessageRecord s e d), some (queuedMessageRecord s e d)) := by
        simp [createMessage, h1f, h2]
      rw [hq, insertMessage_messages] at hm
      rcases List.mem_append.1 hm with h | h
      · exact Or.inl h
      · rw [List.mem_singleton.1 h]
        exact Or.inr (Or.inr ⟨rfl, truthy_ne_none h2, rfl⟩)
    · have h2f : truthy d.inviteId = false := by simpa using h2
      by_cases h3 : (d.status == some "sent" || d.status == none) = true
      · by_cases h4 : (d.audience == some "invited") = true
        · have hcm : createMessage e d s =
              ((fanoutQueued e d (s.invites.filter (fun i => i.eventId == e)) s).1,
                (fanoutQueued e d (s.invites.filter (fun i => i.eventId == e)) s).2.head?) := by
            simp [createMessage, h1f, h2f, h3, h4]
          rw [hcm] at hm
          rw [fanoutQueued_messages] at hm
          rcases List.mem_append.1 hm with h | h
          · exact Or.inl h
          · obtain ⟨hst, hda, hatt, i, hi, hid⟩ := fanoutQueued_created e d _ s m h
            exact Or.inr (Or.inr ⟨hst, by simp [hid], hatt⟩)
        · have h4f : (d.audience == some "invited") = false := by simpa using h4
          rw [broadcast_messages e d s h1f h2f h3 h4f _ rfl] at hm
          rcases List.mem_append.1 hm with hm1 | hmq
          · rcases List.mem_append.1 hm1 with h | h
            · exact Or.inl h
            · obtain ⟨hst, hda, -, -⟩ := fanoutDelivered_created e d _ s m h
              exact Or.inr (Or.inl ⟨hst, hda⟩)
          · obtain ⟨hst, hda, hatt, i, -, hid⟩ := fanoutQueued_created e d _ _ m hmq
            exact Or.inr (Or.inr ⟨hst, by simp [hid], hatt⟩)
      · have h3f : (d.status == some "sent" || d.status == none) = false := by
          simpa using h3
        have hcm : (createMessage e d s).1.messages = s.messages ++
            [{ id := s.nextId, eventId := e, attendeeId := d.attendeeId, inviteId := none,
               title := d.title, body := d.body, attachments := orEmpty d.attachments,
               status := orSent d.status, deliveryStatus := some DeliveryState.delivered,
               unread := truthy d.attendeeId, deliveredAt := some s.now,
               createdAt := s.nextId }] := by
          simp [createMessage, h1f, h2f, h3f, Store.insertMessage]
        rw [hcm] at hm
        rcases List.mem_append.1 hm with h | h
        · exact Or.inl h
        · rw [List.mem_singleton.1 h]
          exact Or.inr (Or.inl ⟨rfl, rfl⟩)

/-- C4: the delivery-state invariant is preserved by every operation of the
subsystem: `createMessage` on each of its paths, `deliverQueuedMessages`,
and `sendMessage` (whose records carry no delivery state at all, the
column being nullable). -/
theorem message_state_invariant (s : Store)
    (hs : ∀ m ∈ s.messages, msgInvariant m) :
    (∀ e d, ∀ m ∈ (createMessage e d s).1.messages, msgInvariant m) ∧
    (∀ iid aid, ∀ m ∈ (deliverQueuedMessages iid aid s).1.messages, msgInvariant m) ∧
    (∀ e mid t rep, sendMessage e mid s = some (t, rep) →
      ∀ m ∈ t.messages, msgInvariant m) := by
  refine ⟨fun e d m hm => ?_, fun iid aid m hm => ?_, fun e mid t rep hsend m hm => ?_⟩
  · rcases mem_createMessage_cases e d s m hm with h | h | h
    · exact hs m h
    · refine ⟨fun hq => ?_, fun _ => by rw [h.2]; simp⟩
      rw [h.1] at hq
      simp at hq
    · refine ⟨fun _ => ⟨h.2.1, h.2.2⟩, fun hdel => ?_⟩
      rw [h.1] at hdel
      simp at hdel
  · rw [deliver_messages_map iid aid s] at hm
    rcases List.mem_map.1 hm with ⟨x, hx, rfl⟩
    by_cases hq : queuedFor iid x = true
    · rw [if_pos hq]
      exact ⟨fun hqq => absurd hqq (by simp [promoteRecord]),
        fun _ => by simp [promoteRecord]⟩
    · rw [if_neg hq]
      exact hs x hx
  · have hall : ∀ x ∈ t.messages, x ∈ s.messages ∨ x.deliveryStatus = none := by
      intro x hx
      cases hfind : s.messages.find? (fun y => y.id == mid && y.eventId == e) with
      | some msg =>
        simp only [sendMessage, hfind] at hsend
        simp only [Option.some.injEq, Prod.mk.injEq] at hsend
        rw [← hsend.1, sendFanout_messages] at hx
        rcases List.mem_append.1 hx with h | h
        · exact Or.inl h
        · exact Or.inr (sendFanout_created e _ _ _ _ _ x h).1
      | none =>
        cases hfindb : s.broadcasts.find? (fun b => b.id == mid && b.eventId == e) with
        | none =>
          simp only [sendMessage, hfind, hfindb] at hsend
          cases hsend
        | some b =>
          simp only [sendMessage, hfind, hfindb] at hsend
          simp only [Option.some.injEq, Prod.mk.injEq] at hsend
          rw [← hsend.1, sendFanout_messages] at hx
          rcases List.mem_append.1 hx with h | h
          · exact Or.inl h
          · exact Or.inr (sendFanout_created e _ _ _ _ _ x h).1
    rcases hall m hm with h | h
    · exact hs m h
    · exact ⟨fun hq => absurd hq (by rw [h]; simp),
        fun hdel => absurd hdel (by rw [h]; simp)⟩

theorem message_state_invariant_sample :
    (∀ e d, ∀ m ∈ (createMessage e d storeC4).1.messages, msgInvariant m) ∧
    (∀ iid aid, ∀ m ∈ (deliverQueuedMessages iid aid storeC4).1.messages, msgInvariant m) ∧
    (∀ e mid t rep, sendMessage e mid storeC4 = some (t, rep) →
      ∀ m ∈ t.messages, msgInvariant m) :=
  message_state_invariant storeC4 (by simp [storeC4])

end EventMsg
